import Mathlib

/-!
Verification of the visual input-box detector of pygui-commander
(`src/input_detection.py`, class `InputDetector`).

The algorithmic content of the detector is the logic around a handful of
OpenCV / tesseract library calls.  The library calls themselves
(`cv2.findContours` + `cv2.boundingRect`, `pytesseract.image_to_string`,
`cv2.matchTemplate` + `cv2.minMaxLoc`, `cv2.imread`) are external
collaborators; we embed them as inputs:

* the contour stage of `find_input_box_by_placeholder` is a list of
  bounding rectangles, each paired with the raw OCR text of its region
  (the code then applies `.strip()`, modelled by the `strip` function
  below);
* the contour stage of `find_arrow_icon` is a list of bounding rectangles;
* template loading yields `Option Template` (`cv2.imread` returns `None`
  on failure, and the subsequent `cv2.cvtColor(None, ...)` raises, which
  the surrounding `try`/`except` converts into the `None` result);
* `cv2.matchTemplate`/`cv2.minMaxLoc` on the right half of the screenshot
  is a function from the template index and template to the best score
  and its offset (relative to the right-half search region).

Scores and confidences are modelled as rationals (`ℚ`); the Python code
uses floats, but every comparison the claims are about (`> 0.6`,
`0.8 < w/h < 1.2`) is stated by the spec over exact values.
All coordinate arithmetic (`//` on nonnegative ints) is `Nat` arithmetic.
-/

/-- Model of the `InputBox` dataclass of `input_detection.py` (lines 11-20). -/
structure InputBox where
  x : Nat
  y : Nat
  width : Nat
  height : Nat
  confidence : ℚ
  text : String
  click_position : Nat × Nat
  deriving Repr, DecidableEq

/-- A bounding rectangle as returned by `cv2.boundingRect`. -/
structure Rect where
  x : Nat
  y : Nat
  w : Nat
  h : Nat
  deriving Repr, DecidableEq

/-- A grayscale template image, abstracted to its spatial size
(`template.shape[1]` = width, `template.shape[0]` = height). -/
structure Template where
  width : Nat
  height : Nat
  deriving Repr, DecidableEq

/-- Result of `cv2.minMaxLoc` applied to a `cv2.matchTemplate` response:
the best normalized-correlation score (`max_val`) and its offset
(`max_loc`) within the searched region. -/
structure MatchResult where
  maxVal : ℚ
  maxLoc : Nat × Nat
  deriving Repr, DecidableEq

/-- The shape predicate of line 89 of `input_detection.py`:
`w > 3*h and w > 100`. -/
def inputBoxPred (r : Rect) : Bool :=
  decide (r.w > 3 * r.h) && decide (r.w > 100)

/-- Model of the Python method that removes leading and trailing
whitespace (used as `.strip()` on OCR output). -/
def strip (s : String) : String :=
  ⟨((s.data.dropWhile Char.isWhitespace).reverse.dropWhile
      Char.isWhitespace).reverse⟩

/-- Body of the contour loop of `find_input_box_by_placeholder`
(lines 85-96): keep a rectangle when it passes `inputBoxPred` and its
OCR text, stripped, is nonempty.  The pair carried along is
`(x, y, w, h, text)` with the stripped text. -/
def placeholderCandidates (contours : List (Rect × String)) :
    List (Rect × String) :=
  contours.filterMap fun c =>
    if inputBoxPred c.1 then
      if strip c.2 ≠ "" then some (c.1, strip c.2) else none
    else none

/-- Selection of lines 105-106, a stable sort by text length descending
followed
by taking element `[0]`: the Python sort is stable, so this selects the
first element (in contour order) whose text length is maximal.  The fold
keeps the current element unless a strictly longer text appears. -/
def selectLongest : Rect × String → List (Rect × String) → Rect × String
  | p, [] => p
  | p, q :: qs => selectLongest (if q.2.length > p.2.length then q else p) qs

/-- Model of `InputDetector.find_input_box_by_placeholder` (lines 58-128), the
placeholder-text strategy, with the contour+OCR stage abstracted as a
list of bounding rectangles paired with their raw OCR output. -/
def find_input_box_by_placeholder (contours : List (Rect × String)) :
    Option InputBox :=
  match placeholderCandidates contours with
  | [] => none
  | p :: ps =>
    let best := selectLongest p ps
    let r := best.1
    some { x := r.x, y := r.y, width := r.w, height := r.h,
           confidence := 100,  -- line 120: no confidence score for this method
           text := best.2,
           click_position := (r.x + r.w / 2, r.y + r.h / 2) }

/-- The shape predicate of line 155 of `input_detection.py`:
`0.8 < w/h < 1.2 and w > 10`.  The true float division `w/h` of two
nonnegative ints is the rational `mkRat w h` (the loop guards `h = 0`). -/
def arrowPred (r : Rect) : Bool :=
  decide (mkRat 4 5 < mkRat r.w r.h) &&
  decide (mkRat r.w r.h < mkRat 6 5) &&
  decide (r.w > 10)

/-- Contour loop of `find_arrow_icon` (lines 150-160).  A rectangle of
height `0` makes `w/h` raise `ZeroDivisionError`, which the `except`
clause converts to the `None` result (`cv2.boundingRect` never produces
one, but the control flow is embedded faithfully). -/
def arrowLoop : List Rect → Option (Nat × Nat)
  | [] => none
  | r :: rs =>
    if r.h = 0 then none
    else if arrowPred r then some (r.x + r.w / 2, r.y + r.h / 2)
    else arrowLoop rs

/-- Model of `InputDetector.find_arrow_icon` (lines 130-165), with the contour
stage abstracted as a list of bounding rectangles.  The direction flag
`is_up_arrow` is a parameter of the Python function that its body never
reads. -/
def find_arrow_icon (contours : List Rect) ( is_up_arrow : Bool) :
    Option (Nat × Nat) :=
  arrowLoop contours

/-- Candidate dictionary built at lines 208-215 of `find_input_box`:
absolute coordinates are recovered by adding `width//2` (the horizontal
origin of the right-half search region) back to the match offset. -/
structure Candidate where
  x : Nat
  y : Nat
  width : Nat
  height : Nat
  confidence : ℚ
  template_idx : Nat
  deriving Repr, DecidableEq

/-- Builds the candidate dictionary for template index `i` from the
match result `r` on the right half of an image of width `imgWidth`. -/
def candidateOf (imgWidth : Nat) (i : Nat) (t : Template) (r : MatchResult) :
    Candidate :=
  { x := r.maxLoc.1 + imgWidth / 2
    y := r.maxLoc.2
    width := t.width
    height := t.height
    confidence := r.maxVal
    template_idx := i }

/-- The template loop of `find_input_box` (lines 195-221): for
`i, template in enumerate([template1_gray, template2_gray])`, a candidate
is appended exactly when `max_val > 0.6` (the threshold `0.6` is the
rational `mkRat 3 5`). -/
def strategyB_matches (imgWidth : Nat) (templates : List Template)
    (m : Nat → Template → MatchResult) : List Candidate :=
  templates.enum.filterMap fun it =>
    let r := m it.1 it.2
    if r.maxVal > mkRat 3 5 then some (candidateOf imgWidth it.1 it.2 r) else none

/-- Best-match selection of line 229, the built-in max over the matches
list keyed by confidence: the first element attaining the maximal
confidence (the Python max keeps the
earlier element on ties). -/
def maxByConfidence : Candidate → List Candidate → Candidate
  | c, [] => c
  | c, d :: ds => maxByConfidence (if d.confidence > c.confidence then d else c) ds

/-- Result construction of lines 231-254 of `find_input_box`. -/
def boxOfCandidate (best : Candidate) : InputBox :=
  { x := best.x, y := best.y, width := best.width, height := best.height,
    confidence := best.confidence,
    text := "input_box",
    click_position := (best.x + best.width / 2, best.y + best.height / 2) }

/-- Model of `InputDetector.find_input_box` (lines 167-260), the template-match
strategy.  `template1`/`template2` are the results of loading
`screenshots/input.png` / `screenshots/input_new.png`; a failed load
(`none`) makes `cv2.cvtColor` raise, and the `except` clause returns
`None`.  `m i t` is the `minMaxLoc` summary of matching template `t`
(index `i`) against the right half `gray[:, width//2:]`. -/
def find_input_box (imgWidth imgHeight : Nat)
    (template1 template2 : Option Template)
    (m : Nat → Template → MatchResult) : Option InputBox :=
  match template1, template2 with
  | some t1, some t2 =>
    match strategyB_matches imgWidth [t1, t2] m with
    | [] => none
    | c :: cs => some (boxOfCandidate (maxByConfidence c cs))
  | _, _ => none

/-! ### Helper lemmas -/

lemma strategyB_matches_pair (w : Nat) (t1 t2 : Template)
    (m : Nat → Template → MatchResult) :
    strategyB_matches w [t1, t2] m =
      (if (m 0 t1).maxVal > mkRat 3 5 then [candidateOf w 0 t1 (m 0 t1)] else []) ++
      (if (m 1 t2).maxVal > mkRat 3 5 then [candidateOf w 1 t2 (m 1 t2)] else []) := by
  by_cases h0 : (m 0 t1).maxVal > mkRat 3 5 <;> by_cases h1 : (m 1 t2).maxVal > mkRat 3 5 <;>
    simp [strategyB_matches, List.enum, List.enumFrom, List.filterMap, h0, h1]

lemma maxByConfidence_mem (c : Candidate) (cs : List Candidate) :
    maxByConfidence c cs ∈ c :: cs := by
  induction cs generalizing c with
  | nil => simp [maxByConfidence]
  | cons d ds ih =>
    simp only [maxByConfidence]
    rcases List.mem_cons.1 (ih (if d.confidence > c.confidence then d else c)) with h1 | h1
    · rw [h1]; split <;> simp
    · exact List.mem_cons.2 (Or.inr (List.mem_cons.2 (Or.inr h1)))

lemma maxByConfidence_le (c : Candidate) (cs : List Candidate) :
    ∀ d ∈ c :: cs, d.confidence ≤ (maxByConfidence c cs).confidence := by
  induction cs generalizing c with
  | nil =>
    intro d hd
    rw [List.mem_singleton] at hd
    rw [hd]
    exact le_refl _
  | cons e es ih =>
    intro d hd
    simp only [maxByConfidence]
    have hc : c.confidence ≤ (if e.confidence > c.confidence then e else c).confidence := by
      by_cases h : e.confidence > c.confidence
      · rw [if_pos h]; exact le_of_lt h
      · rw [if_neg h]
    have he : e.confidence ≤ (if e.confidence > c.confidence then e else c).confidence := by
      by_cases h : e.confidence > c.confidence
      · rw [if_pos h]
      · rw [if_neg h]; exact le_of_not_lt h
    rcases List.mem_cons.1 hd with h1 | h1
    · subst h1; exact le_trans hc (ih _ _ (List.mem_cons_self _ _))
    · rcases List.mem_cons.1 h1 with h2 | h2
      · subst h2; exact le_trans he (ih _ _ (List.mem_cons_self _ _))
      · exact ih _ d (List.mem_cons.2 (Or.inr h2))

lemma mem_strategyB_matches (w : Nat) (t1 t2 : Template)
    (m : Nat → Template → MatchResult) (c : Candidate)
    (hc : c ∈ strategyB_matches w [t1, t2] m) :
    c = candidateOf w 0 t1 (m 0 t1) ∨ c = candidateOf w 1 t2 (m 1 t2) := by
  rw [strategyB_matches_pair] at hc
  rcases List.mem_append.1 hc with h | h
  · left; split at h <;> simp_all
  · right; split at h <;> simp_all

lemma find_input_box_some (w h : Nat) (t1 t2 : Template)
    (m : Nat → Template → MatchResult) (b : InputBox)
    (hb : find_input_box w h (some t1) (some t2) m = some b) :
    ∃ c cs, strategyB_matches w [t1, t2] m = c :: cs ∧
      b = boxOfCandidate (maxByConfidence c cs) := by
  cases hm : strategyB_matches w [t1, t2] m with
  | nil => simp [find_input_box, hm] at hb
  | cons c cs =>
    refine ⟨c, cs, rfl, ?_⟩
    simp [find_input_box, hm] at hb
    exact hb.symm

lemma selectLongest_mem (p : Rect × String) (ps : List (Rect × String)) :
    selectLongest p ps ∈ p :: ps := by
  induction ps generalizing p with
  | nil => simp [selectLongest]
  | cons q qs ih =>
    simp only [selectLongest]
    rcases List.mem_cons.1 (ih (if q.2.length > p.2.length then q else p)) with h1 | h1
    · rw [h1]; split <;> simp
    · exact List.mem_cons.2 (Or.inr (List.mem_cons.2 (Or.inr h1)))

lemma selectLongest_le (p : Rect × String) (ps : List (Rect × String)) :
    ∀ q ∈ p :: ps, q.2.length ≤ (selectLongest p ps).2.length := by
  induction ps generalizing p with
  | nil =>
    intro q hq
    rw [List.mem_singleton] at hq
    rw [hq]
    exact le_refl _
  | cons e es ih =>
    intro q hq
    simp only [selectLongest]
    have hc : p.2.length ≤ (if e.2.length > p.2.length then e else p).2.length := by
      by_cases h : e.2.length > p.2.length
      · rw [if_pos h]; exact le_of_lt h
      · rw [if_neg h]
    have he : e.2.length ≤ (if e.2.length > p.2.length then e else p).2.length := by
      by_cases h : e.2.length > p.2.length
      · rw [if_pos h]
      · rw [if_neg h]; exact le_of_not_lt h
    rcases List.mem_cons.1 hq with h1 | h1
    · subst h1; exact le_trans hc (ih _ _ (List.mem_cons_self _ _))
    · rcases List.mem_cons.1 h1 with h2 | h2
      · subst h2; exact le_trans he (ih _ _ (List.mem_cons_self _ _))
      · exact ih _ q (List.mem_cons.2 (Or.inr h2))

lemma arrowLoop_eq_find (contours : List Rect) (hpos : ∀ r ∈ contours, 0 < r.h) :
    arrowLoop contours =
      (contours.find? arrowPred).map fun r => (r.x + r.w / 2, r.y + r.h / 2) := by
  induction contours with
  | nil => rfl
  | cons r rs ih =>
    have hr : ¬ (r.h = 0) :=
      Nat.pos_iff_ne_zero.mp (hpos r (List.mem_cons_self _ _))
    simp only [arrowLoop, List.find?]
    rw [if_neg hr]
    cases hp : arrowPred r with
    | true => simp [hp]
    | false =>
      simp only [hp]
      exact ih fun q hq => hpos q (List.mem_cons.2 (Or.inr hq))

/-! ### Claim theorems -/

/-- Claim C7: the input-box shape predicate accepts a bounding box exactly
when `width > 3*height` and `width > 100`, both strict; a box whose width
is exactly three times its height (150×50) is rejected, as is a box of
width exactly 100 (100×10). -/
theorem claim_C7 :
    (∀ r : Rect, inputBoxPred r = true ↔ (3 * r.h < r.w ∧ 100 < r.w)) ∧
    inputBoxPred ⟨0, 0, 150, 50⟩ = false ∧
    inputBoxPred ⟨0, 0, 100, 10⟩ = false := by
  refine ⟨fun r => ?_, by decide, by decide⟩
  simp [inputBoxPred]

theorem claim_C7_witness : inputBoxPred ⟨0, 0, 200, 50⟩ = true :=
  (claim_C7.1 ⟨0, 0, 200, 50⟩).mpr (by decide)

/-- Claim C10: every `InputBox` produced by the template-match strategy
carries the literal text `"input_box"`. -/
theorem claim_C10 (imgWidth imgHeight : Nat) (template1 template2 : Option Template)
    (m : Nat → Template → MatchResult) (b : InputBox)
    (hb : find_input_box imgWidth imgHeight template1 template2 m = some b) :
    b.text = "input_box" := by
  cases template1 with
  | none => simp [find_input_box] at hb
  | some t1 =>
    cases template2 with
    | none => simp [find_input_box] at hb
    | some t2 =>
      rcases find_input_box_some _ _ _ _ _ _ hb with ⟨c, cs, hm, hbb⟩
      rw [hbb]
      rfl

theorem claim_C10_witness :
    ({ x := 400, y := 0, width := 80, height := 30, confidence := 1,
       text := "input_box", click_position := (440, 15) } : InputBox).text =
      "input_box" :=
  claim_C10 800 600 (some ⟨80, 30⟩) (some ⟨80, 30⟩) (fun _ _ => ⟨1, (0, 0)⟩) _
    (by decide)

/-- Claim C9: the `is_up_arrow` flag has no effect on `find_arrow_icon`:
both flag values give the same result, namely the center of the first
bounding box in contour order satisfying the near-square predicate
(`0.8 < w/h < 1.2` and `w > 10`), or `none` when no box qualifies
(bounding rectangles of real contours always have positive height). -/
theorem claim_C9 :
    (∀ contours : List Rect,
       find_arrow_icon contours true = find_arrow_icon contours false) ∧
    (∀ (contours : List Rect) (flag : Bool), (∀ r ∈ contours, 0 < r.h) →
       find_arrow_icon contours flag =
         (contours.find? arrowPred).map fun r => (r.x + r.w / 2, r.y + r.h / 2)) ∧
    (∀ r : Rect, 0 < r.h →
       (arrowPred r = true ↔
         ((4 : ℚ) / 5 < (r.w : ℚ) / (r.h : ℚ) ∧
          (r.w : ℚ) / (r.h : ℚ) < (6 : ℚ) / 5 ∧ 10 < r.w))) := by
  refine ⟨fun _ => rfl, fun contours _ hpos => arrowLoop_eq_find contours hpos,
    fun r _ => ?_⟩
  have hd : (mkRat r.w r.h : ℚ) = (r.w : ℚ) / (r.h : ℚ) := by
    rw [Rat.mkRat_eq_div]
    norm_num
  have h45 : (mkRat 4 5 : ℚ) = (4 : ℚ) / 5 := by
    rw [Rat.mkRat_eq_div]
    norm_num
  have h65 : (mkRat 6 5 : ℚ) = (6 : ℚ) / 5 := by
    rw [Rat.mkRat_eq_div]
    norm_num
  simp [arrowPred, hd, h45, h65, and_assoc]

theorem claim_C9_witness :
    find_arrow_icon [⟨5, 5, 20, 20⟩] true =
      (([⟨5, 5, 20, 20⟩] : List Rect).find? arrowPred).map
        (fun r => (r.x + r.w / 2, r.y + r.h / 2)) :=
  claim_C9.2.1 [⟨5, 5, 20, 20⟩] true (by decide)

/-- Claim C4: the modelled internal failures of the public detection
operations are converted into the `none` ("not found") result instead of
escaping: a missing first or second template makes `find_input_box`
return `none` (the `cv2.cvtColor(None, ...)` exception is caught by the
try/except of the operation), and a zero-height leading rectangle — the
one arithmetic fault reachable in the loop of `find_arrow_icon` — makes
`find_arrow_icon` return `none` (the `ZeroDivisionError` is caught).
All three embedded operations are total functions into `Option`, so no
input makes any of them propagate a failure. -/
theorem claim_C4 :
    (∀ (imgWidth imgHeight : Nat) (template2 : Option Template)
       (m : Nat → Template → MatchResult),
       find_input_box imgWidth imgHeight none template2 m = none) ∧
    (∀ (imgWidth imgHeight : Nat) (template1 : Option Template)
       (m : Nat → Template → MatchResult),
       find_input_box imgWidth imgHeight template1 none m = none) ∧
    (∀ (r : Rect) (rs : List Rect) (flag : Bool), r.h = 0 →
       find_arrow_icon (r :: rs) flag = none) := by
  refine ⟨?_, ?_, ?_⟩
  · intro w h t2 m
    cases t2 <;> rfl
  · intro w h t1 m
    cases t1 <;> rfl
  · intro r rs flag hr
    show arrowLoop (r :: rs) = none
    simp [arrowLoop, hr]

theorem claim_C4_witness :
    find_input_box 800 600 none (some ⟨80, 30⟩) (fun _ _ => ⟨1, (0, 0)⟩) = none ∧
    find_input_box 800 600 (some ⟨80, 30⟩) none (fun _ _ => ⟨1, (0, 0)⟩) = none ∧
    find_arrow_icon [⟨0, 0, 5, 0⟩] true = none :=
  ⟨claim_C4.1 800 600 (some ⟨80, 30⟩) _, claim_C4.2.1 800 600 (some ⟨80, 30⟩) _,
   claim_C4.2.2 ⟨0, 0, 5, 0⟩ [] true rfl⟩

/-- Claim C8: template loading is all-or-nothing — if either template
fails to load, `find_input_box` returns `none`, even when the template
that did load would clear the `0.6` threshold on its own. -/
theorem claim_C8 (imgWidth imgHeight : Nat) (t : Template)
    (m : Nat → Template → MatchResult) :
    (mkRat 3 5 < (m 1 t).maxVal →
       find_input_box imgWidth imgHeight none (some t) m = none) ∧
    (mkRat 3 5 < (m 0 t).maxVal →
       find_input_box imgWidth imgHeight (some t) none m = none) :=
  ⟨fun _ => rfl, fun _ => rfl⟩

theorem claim_C8_witness :
    find_input_box 800 600 none (some ⟨80, 30⟩)
      (fun _ _ => ⟨1, (250, 300)⟩) = none :=
  (claim_C8 800 600 ⟨80, 30⟩ (fun _ _ => ⟨1, (250, 300)⟩)).1 (by decide)

lemma find_input_box_nil (w h : Nat) (t1 t2 : Template)
    (m : Nat → Template → MatchResult)
    (hm : strategyB_matches w [t1, t2] m = []) :
    find_input_box w h (some t1) (some t2) m = none := by
  simp only [find_input_box]
  rw [hm]

lemma find_input_box_cons (w h : Nat) (t1 t2 : Template)
    (m : Nat → Template → MatchResult) (c : Candidate) (cs : List Candidate)
    (hm : strategyB_matches w [t1, t2] m = c :: cs) :
    find_input_box w h (some t1) (some t2) m =
      some (boxOfCandidate (maxByConfidence c cs)) := by
  simp only [find_input_box]
  rw [hm]

lemma find_by_placeholder_eq (contours : List (Rect × String)) (b : InputBox)
    (hb : find_input_box_by_placeholder contours = some b) :
    ∃ p ps, placeholderCandidates contours = p :: ps ∧
      b = { x := (selectLongest p ps).1.x, y := (selectLongest p ps).1.y,
            width := (selectLongest p ps).1.w, height := (selectLongest p ps).1.h,
            confidence := 100, text := (selectLongest p ps).2,
            click_position :=
              ((selectLongest p ps).1.x + (selectLongest p ps).1.w / 2,
               (selectLongest p ps).1.y + (selectLongest p ps).1.h / 2) } := by
  cases hm : placeholderCandidates contours with
  | nil => simp [find_input_box_by_placeholder, hm] at hb
  | cons p ps =>
    refine ⟨p, ps, rfl, ?_⟩
    simp [find_input_box_by_placeholder, hm] at hb
    exact hb.symm

lemma mem_placeholderCandidates (contours : List (Rect × String))
    (c : Rect × String) (hc : c ∈ contours)
    (hp : inputBoxPred c.1 = true) (ht : strip c.2 ≠ "") :
    (c.1, strip c.2) ∈ placeholderCandidates contours :=
  List.mem_filterMap.2 ⟨c, hc, by rw [if_pos hp, if_pos ht]⟩

lemma of_mem_placeholderCandidates (contours : List (Rect × String))
    (q : Rect × String) (hq : q ∈ placeholderCandidates contours) :
    q.2 ≠ "" := by
  rcases List.mem_filterMap.1 hq with ⟨c, _, h⟩
  by_cases hp : inputBoxPred c.1
  · rw [if_pos hp] at h
    by_cases ht : strip c.2 ≠ ""
    · rw [if_pos ht] at h
      have := Option.some.inj h
      rw [← this]
      exact ht
    · rw [if_neg ht] at h
      exact absurd h (by simp)
  · rw [if_neg hp] at h
    exact absurd h (by simp)

/-- Claim C5: confidence is strategy-specific — every placeholder-strategy
result carries the fixed maximal confidence `100.0`, while every
template-match result carries the normalized correlation score reported
by `minMaxLoc` for one of the two templates (the selected match). -/
theorem claim_C5 :
    (∀ (contours : List (Rect × String)) (b : InputBox),
       find_input_box_by_placeholder contours = some b → b.confidence = 100) ∧
    (∀ (w h : Nat) (t1 t2 : Template) (m : Nat → Template → MatchResult)
       (b : InputBox),
       find_input_box w h (some t1) (some t2) m = some b →
         b.confidence = (m 0 t1).maxVal ∨ b.confidence = (m 1 t2).maxVal) := by
  constructor
  · intro contours b hb
    rcases find_by_placeholder_eq contours b hb with ⟨p, ps, _, hbeq⟩
    rw [hbeq]
  · intro w h t1 t2 m b hb
    rcases find_input_box_some w h t1 t2 m b hb with ⟨c, cs, hm, hbb⟩
    have hmem : maxByConfidence c cs ∈ strategyB_matches w [t1, t2] m := by
      rw [hm]
      exact maxByConfidence_mem c cs
    rcases mem_strategyB_matches w t1 t2 m _ hmem with h1 | h1
    · left
      rw [hbb, h1]
      rfl
    · right
      rw [hbb, h1]
      rfl

theorem claim_C5_witness :
    ({ x := 10, y := 50, width := 200, height := 20, confidence := 100,
       text := "abcdefghijkl", click_position := (110, 60) } : InputBox).confidence =
      100 :=
  claim_C5.1 [(⟨10, 50, 200, 20⟩, "abcdefghijkl")]
    { x := 10, y := 50, width := 200, height := 20, confidence := 100,
      text := "abcdefghijkl", click_position := (110, 60) } (by decide)

/-- Claim C6: every `InputBox` returned by either strategy has its click
position equal to the bounding-box center (`x + width/2`, `y + height/2`,
integer division), which lies within the rectangle
`[x, x+width] × [y, y+height]`. -/
theorem claim_C6 :
    (∀ (contours : List (Rect × String)) (b : InputBox),
       find_input_box_by_placeholder contours = some b →
         b.click_position = (b.x + b.width / 2, b.y + b.height / 2) ∧
         b.x ≤ b.click_position.1 ∧ b.click_position.1 ≤ b.x + b.width ∧
         b.y ≤ b.click_position.2 ∧ b.click_position.2 ≤ b.y + b.height) ∧
    (∀ (imgWidth imgHeight : Nat) (template1 template2 : Option Template)
       (m : Nat → Template → MatchResult) (b : InputBox),
       find_input_box imgWidth imgHeight template1 template2 m = some b →
         b.click_position = (b.x + b.width / 2, b.y + b.height / 2) ∧
         b.x ≤ b.click_position.1 ∧ b.click_position.1 ≤ b.x + b.width ∧
         b.y ≤ b.click_position.2 ∧ b.click_position.2 ≤ b.y + b.height) := by
  constructor
  · intro contours b hb
    rcases find_by_placeholder_eq contours b hb with ⟨p, ps, _, hbeq⟩
    subst hbeq
    refine ⟨rfl, ?_, ?_, ?_, ?_⟩ <;> simp <;> omega
  · intro w h template1 template2 m b hb
    cases template1 with
    | none => simp [find_input_box] at hb
    | some t1 =>
      cases template2 with
      | none => simp [find_input_box] at hb
      | some t2 =>
        rcases find_input_box_some w h t1 t2 m b hb with ⟨c, cs, _, hbb⟩
        subst hbb
        refine ⟨rfl, ?_, ?_, ?_, ?_⟩ <;> simp [boxOfCandidate] <;> omega

theorem claim_C6_witness :
    ({ x := 10, y := 50, width := 200, height := 20, confidence := 100,
       text := "abcdefghijkl", click_position := (110, 60) } : InputBox).click_position =
        (10 + 200 / 2, 50 + 20 / 2) ∧
    10 ≤ 110 ∧ 110 ≤ 10 + 200 ∧ 50 ≤ 60 ∧ 60 ≤ 50 + 20 :=
  claim_C6.1 [(⟨10, 50, 200, 20⟩, "abcdefghijkl")]
    { x := 10, y := 50, width := 200, height := 20, confidence := 100,
      text := "abcdefghijkl", click_position := (110, 60) } (by decide)

/-- Claim C1: the template-match strategy reports absolute x coordinates
by adding the right-half horizontal offset `width//2` back to the offset
found in the restricted search region; concretely, for an 800×600 image
where matching template #2 (size 80×30) on the right half finds a perfect
match (score 1) at right-half offset (250, 300) — i.e. the template was
pasted at absolute pixel (650, 300) — and template #1 scores below 1, the
strategy returns `x=650, y=300, width=80, height=30, confidence=1,
click_position=(690, 315)`. -/
theorem claim_C1 :
    (∀ (w h : Nat) (t1 t2 : Template) (m : Nat → Template → MatchResult)
       (b : InputBox),
       find_input_box w h (some t1) (some t2) m = some b →
         b.x = (m 0 t1).maxLoc.1 + w / 2 ∨ b.x = (m 1 t2).maxLoc.1 + w / 2) ∧
    (∀ (t1 : Template) (m : Nat → Template → MatchResult),
       (m 0 t1).maxVal < 1 →
       m 1 ⟨80, 30⟩ = ⟨1, (250, 300)⟩ →
       find_input_box 800 600 (some t1) (some ⟨80, 30⟩) m =
         some { x := 650, y := 300, width := 80, height := 30, confidence := 1,
                text := "input_box", click_position := (690, 315) }) := by
  constructor
  · intro w h t1 t2 m b hb
    rcases find_input_box_some w h t1 t2 m b hb with ⟨c, cs, hm, hbb⟩
    have hmem : maxByConfidence c cs ∈ strategyB_matches w [t1, t2] m := by
      rw [hm]
      exact maxByConfidence_mem c cs
    rcases mem_strategyB_matches w t1 t2 m _ hmem with h1 | h1
    · left
      rw [hbb, h1]
      rfl
    · right
      rw [hbb, h1]
      rfl
  · intro t1 m hlt hm2
    have h1 : (m 1 (⟨80, 30⟩ : Template)).maxVal > mkRat 3 5 := by
      rw [hm2]
      decide
    by_cases h0 : (m 0 t1).maxVal > mkRat 3 5
    · have hm : strategyB_matches 800 [t1, ⟨80, 30⟩] m =
          [candidateOf 800 0 t1 (m 0 t1),
           candidateOf 800 1 ⟨80, 30⟩ (m 1 ⟨80, 30⟩)] := by
        rw [strategyB_matches_pair, if_pos h0, if_pos h1]
        rfl
      rw [find_input_box_cons 800 600 t1 ⟨80, 30⟩ m _ _ hm]
      simp only [maxByConfidence, candidateOf, hm2]
      rw [if_pos (show (1 : ℚ) > (m 0 t1).maxVal from hlt)]
      decide
    · have hm : strategyB_matches 800 [t1, ⟨80, 30⟩] m =
          [candidateOf 800 1 ⟨80, 30⟩ (m 1 ⟨80, 30⟩)] := by
        rw [strategyB_matches_pair, if_neg h0, if_pos h1]
        rfl
      rw [find_input_box_cons 800 600 t1 ⟨80, 30⟩ m _ _ hm]
      simp only [maxByConfidence, candidateOf, hm2]
      decide

theorem claim_C1_witness :
    find_input_box 800 600 (some ⟨100, 40⟩) (some ⟨80, 30⟩)
        (fun i _ => if i = 0 then (⟨0, (0, 0)⟩ : MatchResult)
                    else ⟨1, (250, 300)⟩) =
      some { x := 650, y := 300, width := 80, height := 30, confidence := 1,
             text := "input_box", click_position := (690, 315) } :=
  claim_C1.2 ⟨100, 40⟩
    (fun i _ => if i = 0 then (⟨0, (0, 0)⟩ : MatchResult) else ⟨1, (250, 300)⟩)
    (by decide) (by decide)

/-- Claim C2: in the template-match strategy, each template produces a
candidate exactly when its best score is strictly greater than the
threshold `0.6 = mkRat 3 5 = 3/5`: a score of exactly `0.6` produces no
candidate (so when both scores are at most the threshold the call returns
`none`, not an error), while any larger score — e.g. `0.6000001` in the
witness — produces one; among the candidates produced, the one with the
single (strictly) highest score is returned. -/
theorem claim_C2 (w h : Nat) (t1 t2 : Template)
    (m : Nat → Template → MatchResult) :
    ((mkRat 3 5 : ℚ) = 3 / 5) ∧
    (candidateOf w 0 t1 (m 0 t1) ∈ strategyB_matches w [t1, t2] m ↔
       mkRat 3 5 < (m 0 t1).maxVal) ∧
    (candidateOf w 1 t2 (m 1 t2) ∈ strategyB_matches w [t1, t2] m ↔
       mkRat 3 5 < (m 1 t2).maxVal) ∧
    ((m 0 t1).maxVal ≤ mkRat 3 5 → (m 1 t2).maxVal ≤ mkRat 3 5 →
       find_input_box w h (some t1) (some t2) m = none) ∧
    ((m 0 t1).maxVal ≤ mkRat 3 5 → mkRat 3 5 < (m 1 t2).maxVal →
       find_input_box w h (some t1) (some t2) m =
         some (boxOfCandidate (candidateOf w 1 t2 (m 1 t2)))) ∧
    (mkRat 3 5 < (m 0 t1).maxVal → (m 1 t2).maxVal ≤ mkRat 3 5 →
       find_input_box w h (some t1) (some t2) m =
         some (boxOfCandidate (candidateOf w 0 t1 (m 0 t1)))) ∧
    (mkRat 3 5 < (m 0 t1).maxVal → mkRat 3 5 < (m 1 t2).maxVal →
       (m 0 t1).maxVal < (m 1 t2).maxVal →
       find_input_box w h (some t1) (some t2) m =
         some (boxOfCandidate (candidateOf w 1 t2 (m 1 t2)))) ∧
    (mkRat 3 5 < (m 0 t1).maxVal → mkRat 3 5 < (m 1 t2).maxVal →
       (m 1 t2).maxVal < (m 0 t1).maxVal →
       find_input_box w h (some t1) (some t2) m =
         some (boxOfCandidate (candidateOf w 0 t1 (m 0 t1)))) := by
  have hne : candidateOf w 0 t1 (m 0 t1) ≠ candidateOf w 1 t2 (m 1 t2) := by
    simp [candidateOf]
  refine ⟨by rw [Rat.mkRat_eq_div]; norm_num, ?_, ?_, ?_, ?_, ?_, ?_, ?_⟩
  · rw [strategyB_matches_pair]
    by_cases h0 : (m 0 t1).maxVal > mkRat 3 5 <;>
      by_cases h1 : (m 1 t2).maxVal > mkRat 3 5 <;>
        simp [h0, h1, hne]
  · rw [strategyB_matches_pair]
    by_cases h0 : (m 0 t1).maxVal > mkRat 3 5 <;>
      by_cases h1 : (m 1 t2).maxVal > mkRat 3 5 <;>
        simp [h0, h1, hne.symm]
  · intro h0 h1
    apply find_input_box_nil
    rw [strategyB_matches_pair, if_neg (not_lt.mpr h0), if_neg (not_lt.mpr h1)]
    rfl
  · intro h0 h1
    have hm : strategyB_matches w [t1, t2] m =
        [candidateOf w 1 t2 (m 1 t2)] := by
      rw [strategyB_matches_pair, if_neg (not_lt.mpr h0), if_pos h1]
      rfl
    rw [find_input_box_cons w h t1 t2 m _ _ hm]
    rfl
  · intro h0 h1
    have hm : strategyB_matches w [t1, t2] m =
        [candidateOf w 0 t1 (m 0 t1)] := by
      rw [strategyB_matches_pair, if_pos h0, if_neg (not_lt.mpr h1)]
      rfl
    rw [find_input_box_cons w h t1 t2 m _ _ hm]
    rfl
  · intro h0 h1 hlt
    have hm : strategyB_matches w [t1, t2] m =
        [candidateOf w 0 t1 (m 0 t1), candidateOf w 1 t2 (m 1 t2)] := by
      rw [strategyB_matches_pair, if_pos h0, if_pos h1]
      rfl
    rw [find_input_box_cons w h t1 t2 m _ _ hm]
    simp only [maxByConfidence, candidateOf]
    rw [if_pos hlt]
  · intro h0 h1 hlt
    have hm : strategyB_matches w [t1, t2] m =
        [candidateOf w 0 t1 (m 0 t1), candidateOf w 1 t2 (m 1 t2)] := by
      rw [strategyB_matches_pair, if_pos h0, if_pos h1]
      rfl
    rw [find_input_box_cons w h t1 t2 m _ _ hm]
    simp only [maxByConfidence, candidateOf]
    rw [if_neg (not_lt.mpr (le_of_lt hlt))]

theorem claim_C2_witness :
    find_input_box 800 600 (some ⟨80, 30⟩) (some ⟨80, 30⟩)
        (fun _ _ => ⟨mkRat 3 5, (0, 0)⟩) = none ∧
    find_input_box 800 600 (some ⟨80, 30⟩) (some ⟨80, 30⟩)
        (fun i _ => if i = 0 then (⟨mkRat 3 5, (0, 0)⟩ : MatchResult)
                    else ⟨mkRat 6000001 10000000, (5, 7)⟩) =
      some (boxOfCandidate
        (candidateOf 800 1 ⟨80, 30⟩ ⟨mkRat 6000001 10000000, (5, 7)⟩)) :=
  ⟨(claim_C2 800 600 ⟨80, 30⟩ ⟨80, 30⟩
      (fun _ _ => ⟨mkRat 3 5, (0, 0)⟩)).2.2.2.1 (by decide) (by decide),
   (claim_C2 800 600 ⟨80, 30⟩ ⟨80, 30⟩
      (fun i _ => if i = 0 then (⟨mkRat 3 5, (0, 0)⟩ : MatchResult)
                  else ⟨mkRat 6000001 10000000, (5, 7)⟩)).2.2.2.2.1
     (by decide) (by decide)⟩

/-- Claim C3: in the placeholder-text strategy every candidate whose
stripped OCR text is empty is discarded (the returned text is never
empty), the text of the selected candidate has maximal length among all
qualifying candidates, the confidence is the fixed maximal value `100.0`
and the click point is the bounding-box center; concretely, of two
candidate boxes with text lengths 5 and 12 the 12-character one is
returned, and on a length tie the first in contour order is returned. -/
theorem claim_C3 :
    (∀ (contours : List (Rect × String)) (b : InputBox),
       find_input_box_by_placeholder contours = some b →
         b.text ≠ "" ∧ b.confidence = 100 ∧
         b.click_position = (b.x + b.width / 2, b.y + b.height / 2) ∧
         ∀ c ∈ contours, inputBoxPred c.1 = true →
           (strip c.2).length ≤ b.text.length) ∧
    (find_input_box_by_placeholder
        [(⟨10, 10, 200, 20⟩, "abcde"), (⟨10, 50, 200, 20⟩, "abcdefghijkl")] =
      some { x := 10, y := 50, width := 200, height := 20, confidence := 100,
             text := "abcdefghijkl", click_position := (110, 60) }) ∧
    (find_input_box_by_placeholder
        [(⟨10, 10, 200, 20⟩, "abcde"), (⟨10, 50, 200, 20⟩, "fghij")] =
      some { x := 10, y := 10, width := 200, height := 20, confidence := 100,
             text := "abcde", click_position := (110, 20) }) := by
  refine ⟨?_, by decide, by decide⟩
  intro contours b hb
  rcases find_by_placeholder_eq contours b hb with ⟨p, ps, hm, hbeq⟩
  have hbest : selectLongest p ps ∈ placeholderCandidates contours := by
    rw [hm]
    exact selectLongest_mem p ps
  subst hbeq
  refine ⟨of_mem_placeholderCandidates contours _ hbest, rfl, rfl, ?_⟩
  intro c hc hp
  by_cases ht : strip c.2 = ""
  · rw [ht]
    exact Nat.zero_le _
  · have hmem := mem_placeholderCandidates contours c hc hp ht
    rw [hm] at hmem
    exact selectLongest_le p ps _ hmem

theorem claim_C3_witness :
    ({ x := 10, y := 50, width := 200, height := 20, confidence := 100,
       text := "abcdefghijkl", click_position := (110, 60) } : InputBox).text ≠ "" ∧
    ({ x := 10, y := 50, width := 200, height := 20, confidence := 100,
       text := "abcdefghijkl", click_position := (110, 60) } : InputBox).confidence =
      100 :=
  have h := claim_C3.1
    [(⟨10, 10, 200, 20⟩, "abcde"), (⟨10, 50, 200, 20⟩, "abcdefghijkl")]
    { x := 10, y := 50, width := 200, height := 20, confidence := 100,
      text := "abcdefghijkl", click_position := (110, 60) } (by decide)
  ⟨h.1, h.2.1⟩
